import Mathlib

/-!
# Verification of the IMDB scraper's incremental collection engine

Shallow embedding of the scraper's core loops, faithful to the Python
sources in `src/imdb_scraper/`:

* `utils.py` — the HTTP fetcher `send_request`, wrapped by a tenacity
  retry decorator with `RETRY_PARAMS` (retry on `ConnectionError`/`Timeout`
  only, `stop_after_attempt(5)`, `wait_random(1, 5)`);
* `movie_reviews.py` — the per-entity review pagination engine
  `collect_single_movie_reviews`, the count endpoint
  `get_reviews_total_count`, the review collection loop `collect_reviews`
  and the partition transform `split_helpfulness_col`;
* `movie_metadata.py` — the metadata collection loop `collect_metadata`
  and the identifier collector `collect_ids`.

The network is modelled as an oracle: each embedded function takes the
responses the site would return (or `none` where the corresponding
request raises after the fetcher's retries are exhausted) and computes
exactly what the Python control flow computes from them.
-/

namespace IMDBScraper

/-! ## HTTP fetcher (`utils.py`)

`send_request` is a plain `requests.get` wrapped in
`@retry(retry=retry_if_exception_type((ConnectionError, Timeout)),
stop=stop_after_attempt(5), wait=wait_random(1, 5))`.
An attempt either returns a response carrying an HTTP status code
(requests does not raise on error status codes), raises a transient
`ConnectionError`/`Timeout`, or raises some other exception. -/

/-- Outcome of one HTTP attempt, as seen by the tenacity retry wrapper. -/
inductive Outcome where
  | ok (status : Nat)
  | connError
  | timeout
  | fatal
deriving DecidableEq

/-- `retry_if_exception_type((ConnectionError, Timeout))`: which raised
exceptions the wrapper retries. -/
def retryable : Outcome → Bool
  | .connError => true
  | .timeout => true
  | _ => false

/-- How a `send_request` call can fail: the attempt budget was exhausted on
transient errors (tenacity `RetryError`), or a non-retryable exception
propagated out of an attempt. -/
inductive FetchFailure where
  | retryError
  | raised
deriving DecidableEq

/-- Tenacity's retry driver: attempt `i` with `fuel` attempts still allowed.
A returned response (any status code) ends the call; a non-retryable
exception propagates at once; a transient error consumes one attempt and
retries while attempts remain.  Returns the status code and the total
number of attempts made. -/
def retryRun (outcomes : Nat → Outcome) : Nat → Nat → Except FetchFailure (Nat × Nat)
  | _, 0 => .error .retryError
  | i, fuel + 1 =>
    match outcomes i with
    | .ok s => .ok (s, i + 1)
    | .fatal => .error .raised
    | _ => if fuel = 0 then .error .retryError else retryRun outcomes (i + 1) fuel

/-- `stop_after_attempt(5)` from `RETRY_PARAMS`. -/
def STOP_AFTER_ATTEMPT : Nat := 5

/-- `send_request` (`utils.py`): the attempt sequence is the oracle
`outcomes`; attempt `i` has outcome `outcomes i`. -/
def send_request (outcomes : Nat → Outcome) : Except FetchFailure (Nat × Nat) :=
  retryRun outcomes 0 STOP_AFTER_ATTEMPT

/-- `wait_random(lo, hi)` from tenacity: with `r` the underlying uniform
draw from `[0, 1)`, the produced delay is `lo + r * (hi - lo)`. -/
def wait_random (lo hi r : ℚ) : ℚ := lo + r * (hi - lo)

/-! ## Review pagination engine (`movie_reviews.py`) -/

/-- One parsed response of the review feed: the review records extracted
from its `.review-container` tags, and the `data-key` of its
`.load-more-data` element when that element is present. -/
structure ReviewPage (α : Type) where
  batch : List α
  key : Option String
deriving DecidableEq

/-- The `while load_another_reviews` loop of `collect_single_movie_reviews`:
append the current page's batch to the accumulator; stop as soon as the
accumulated count strictly exceeds `reviews_num_max` (the check runs only
after appending); otherwise stop when the page carries no pagination key;
otherwise fetch the next page (`more` lists the responses to the successive
continuation requests) and continue. -/
def paginate (target : Nat) : ReviewPage α → List (ReviewPage α) → List α → List α
  | page, more, acc =>
    let acc' := acc ++ page.batch
    if target < acc'.length then acc'
    else
      match page.key with
      | none => acc'
      | some _ =>
        match more with
        | [] => acc'
        | next :: rest => paginate target next rest acc'

/-- Errors that can escape the review-collection functions. -/
inductive ScrapeErr where
  | unboundLocal
  | propagated
deriving DecidableEq

/-- `get_reviews_total_count` (`movie_reviews.py`): `send_request` on the
count endpoint is outside the `try`, so a raising request propagates
(`countFetch = none`); the parse of the count out of the page body is
wrapped in `try ... except: return 0`, so any parse failure
(`countFetch = some none`) yields `0`. -/
def get_reviews_total_count : Option (Option Nat) → Except ScrapeErr Nat
  | none => .error .propagated
  | some parse => .ok (parse.getD 0)

/-- Everything the network returns for one entity during
`collect_single_movie_reviews`:
* `start` — the response to the start-URL request, `none` when that request
  raises after retries (the exception is caught and only logged, leaving
  the local `res` unbound);
* `countFetch` — the count endpoint, as in `get_reviews_total_count`;
* `more` — the responses to the successive load-more continuation
  requests, in order. -/
structure EntityFeed (α : Type) where
  start : Option (ReviewPage α)
  countFetch : Option (Option Nat)
  more : List (ReviewPage α)

/-- `collect_single_movie_reviews` (`movie_reviews.py`): the start request
is tried with the exception merely logged; then the total review count is
fetched and `reviews_num_max = int(total * pct_reviews / 100)` computed;
then the pagination loop runs.  When the start request raised, the first
loop iteration evaluates `res.content` with `res` unbound and dies with an
`UnboundLocalError`. -/
def collect_single_movie_reviews (pct : Nat) (feed : EntityFeed α) :
    Except ScrapeErr (List α) := do
  let total ← get_reviews_total_count feed.countFetch
  let reviews_num_max := total * pct / 100
  match feed.start with
  | none => .error .unboundLocal
  | some first => .ok (paginate reviews_num_max first feed.more [])

/-! ## Review collection loop (`collect_reviews`, `movie_reviews.py`)

The metadata table is read from the progress store (and shuffled); the
columns `reviews_collected_flg` / `reviews_collected_cnt` are ensured (and
reset when `overwrite` is set).  The loop then walks the table rows in
order, skipping rows whose flag is already true, collecting each remaining
movie's reviews, marking it collected with its review count, and flushing
the table plus the buffered reviews whenever `partition_size` movies have
contributed at least one review since the last flush or the table is
exhausted. -/

/-- One row of the shuffled metadata table as the review loop sees it:
its id, its `reviews_collected_flg` / `reviews_collected_cnt` at load
time, and the record list `collect_single_movie_reviews` returns for it
(the per-entity network oracle). -/
structure Movie (α : Type) where
  id : Nat
  flg : Bool
  cnt : Nat
  reviews : List α
deriving DecidableEq

/-- The row of the in-memory table for `id`: `reviews_collected_flg` and
`reviews_collected_cnt` (`metadata.at[movie_id, ...]`). -/
def lookupRow (t : List (Nat × Bool × Nat)) (id : Nat) : Option (Bool × Nat) :=
  (t.find? (fun r => r.1 = id)).map (fun r => r.2)

/-- `metadata.at[movie_id, 'reviews_collected_flg']` (ids absent from the
table never occur: the loop iterates over the table's own index). -/
def flagOf (t : List (Nat × Bool × Nat)) (id : Nat) : Bool :=
  ((lookupRow t id).map (fun r => r.1)).getD false

/-- `metadata.at[movie_id, 'reviews_collected_flg'] = True;
metadata.at[movie_id, 'reviews_collected_cnt'] = num_reviews`. -/
def setFlagCnt (t : List (Nat × Bool × Nat)) (id : Nat) (cnt : Nat) :
    List (Nat × Bool × Nat) :=
  t.map (fun r => if r.1 = id then (r.1, true, cnt) else r)

/-- Mutable state of one `collect_reviews` run.  `partitions` records each
partition write as (partition number, buffered rows); the transform
pipeline applied before `to_csv` is row-count preserving, so the written
file has exactly `rows.length` review rows.  `tableWrites` records the
successive `metadata.to_json` snapshots, `attempted` the ids for which
`collect_single_movie_reviews` was invoked, and `returned` the value an
early `return reviews` (the `return_results` mode) produced. -/
structure RState (α : Type) where
  table : List (Nat × Bool × Nat)
  buffer : List α
  collected_cnt : Nat
  partition_num : Nat
  partitions : List (Nat × List α)
  tableWrites : List (List (Nat × Bool × Nat))
  attempted : List Nat
  returned : Option (List α)

/-- The `for i, movie_id in enumerate(tqdm(metadata.index), 1)` loop of
`collect_reviews`.  `i` is the 1-based position, `total` the table length;
the flush condition is `collected_cnt >= partition_size or i == total`. -/
def reviewLoop (psize : Nat) (return_results : Bool) (total : Nat) :
    Nat → List (Movie α) → RState α → RState α
  | _, [], s => s
  | i, m :: rest, s =>
    if flagOf s.table m.id then reviewLoop psize return_results total (i + 1) rest s
    else
      let buffer' := s.buffer ++ m.reviews
      let num_reviews := m.reviews.length
      let table' := setFlagCnt s.table m.id num_reviews
      let cc := if 0 < num_reviews then s.collected_cnt + 1 else s.collected_cnt
      let s' : RState α :=
        { s with table := table', buffer := buffer', collected_cnt := cc,
                 attempted := s.attempted ++ [m.id] }
      if psize ≤ cc ∨ i = total then
        if return_results then { s' with returned := some buffer' }
        else
          reviewLoop psize return_results total (i + 1) rest
            { s' with buffer := [], collected_cnt := 0,
                      partition_num := s.partition_num + 1,
                      partitions := s.partitions ++ [(s.partition_num, buffer')],
                      tableWrites := s.tableWrites ++ [table'] }
      else reviewLoop psize return_results total (i + 1) rest s'

/-- `collect_reviews` (`movie_reviews.py`): ensure/reset the
`reviews_collected_*` columns according to `overwrite`, then run the loop
from an empty buffer with `collected_cnt = 0` and `partition_num = 1`. -/
def collect_reviews (overwrite : Bool) (psize : Nat) (return_results : Bool)
    (movies : List (Movie α)) : RState α :=
  let table₀ := movies.map (fun m =>
    (m.id, if overwrite then false else m.flg, if overwrite then 0 else m.cnt))
  reviewLoop psize return_results movies.length 1 movies
    { table := table₀, buffer := [], collected_cnt := 0, partition_num := 1,
      partitions := [], tableWrites := [], attempted := [], returned := none }

/-! ## Metadata collection loop (`collect_metadata`, `movie_metadata.py`) -/

/-- One row of the metadata table as the metadata loop sees it: its id,
its `metadata_collected_flg` at load time, whether
`collect_single_movie_metadata` succeeds for it (the network oracle), and
the extracted metadata payload it would return. -/
structure MovieMeta where
  id : Nat
  flg : Bool
  fetchOk : Bool
  fields : Nat
deriving DecidableEq

/-- A row of the in-memory metadata table: id, `metadata_collected_flg`,
and the merged metadata payload (absent until collected). -/
abbrev MRow := Nat × Bool × Option Nat

/-- `metadata.at[id_, 'metadata_collected_flg']`. -/
def mflagOf (t : List MRow) (id : Nat) : Bool :=
  (((t.find? (fun r => r.1 = id)).map (fun r => r.2.1)).getD false)

/-- Whether the metadata table has a row for `id`. -/
def mfound (t : List MRow) (id : Nat) : Bool :=
  (t.find? (fun r => r.1 = id)).isSome

/-- The merge `for k, v in id_metadata.items(): metadata.at[id_, k] = v`
(column values only; the flag is untouched here). -/
def setFields (t : List MRow) (id : Nat) (v : Nat) : List MRow :=
  t.map (fun r => if r.1 = id then (r.1, r.2.1, some v) else r)

/-- `for c in collected: metadata.at[c, 'metadata_collected_flg'] = True`. -/
def setFlagsTrue (t : List MRow) (collected : List Nat) : List MRow :=
  t.map (fun r => if r.1 ∈ collected then (r.1, true, r.2.2) else r)

/-- `BATCH_SIZE` (`movie_metadata.py`). -/
def BATCH_SIZE : Nat := 100

/-- Mutable state of one `collect_metadata` run: the in-memory table, the
`collected` batch since the last flush, the last persisted table snapshot
(`store`, initially the table read at startup), the number of store
writes, and the ids for which a metadata fetch was issued. -/
structure MState where
  table : List MRow
  collected : List Nat
  store : List MRow
  storeWrites : Nat
  fetched : List Nat

/-- The `for i, id_ in enumerate(tqdm(metadata.index))` loop of
`collect_metadata`.  `i` is 0-based, `total` the table length.  Rows whose
flag is true are skipped with `continue`; a raising
`collect_single_movie_metadata` is caught, logged and skipped with
`continue`; after a success the metadata is merged, the id appended to
`collected`, and the flush condition
`len(collected) == BATCH_SIZE or i == total - 1` checked. -/
def metadataLoop (total : Nat) : Nat → List MovieMeta → MState → MState
  | _, [], s => s
  | i, m :: rest, s =>
    if mflagOf s.table m.id then metadataLoop total (i + 1) rest s
    else
      let s₁ : MState := { s with fetched := s.fetched ++ [m.id] }
      if m.fetchOk then
        let table' := setFields s₁.table m.id m.fields
        let collected' := s₁.collected ++ [m.id]
        if collected'.length = BATCH_SIZE ∨ i = total - 1 then
          let table'' := setFlagsTrue table' collected'
          metadataLoop total (i + 1) rest
            { table := table'', collected := [], store := table'',
              storeWrites := s₁.storeWrites + 1, fetched := s₁.fetched }
        else
          metadataLoop total (i + 1) rest
            { s₁ with table := table', collected := collected' }
      else metadataLoop total (i + 1) rest s₁

/-- The metadata-filling phase of `collect_metadata` (`movie_metadata.py`),
starting from the table read from (or just written to) the progress
store. -/
def collect_metadata (movies : List MovieMeta) : MState :=
  let table₀ := movies.map (fun m => (m.id, m.flg, (none : Option Nat)))
  metadataLoop movies.length 0 movies
    { table := table₀, collected := [], store := table₀,
      storeWrites := 0, fetched := [] }

/-! ## Identifier collector (`collect_ids`, `movie_metadata.py`)

`collect_ids` iterates the configured genres; per genre it first calls
`get_total_count` (no exception handling), computes
`max_titles = int(total * pct_titles / 100)`, and then walks
`range(1, max_titles + 1, STEP)` calling `collect_ids_from_single_page`
for each offset (again with no exception handling in either function
beyond the fetcher's retry policy), unioning the ids. -/

/-- `STEP` (`movie_metadata.py`). -/
def STEP : Nat := 50

/-- `range(1, max_titles + 1, STEP)`: offsets `1, 51, ...` while
`offset ≤ max_titles`. -/
def pageOffsets (maxTitles : Nat) : List Nat :=
  (List.range ((maxTitles + STEP - 1) / STEP)).map (fun k => 1 + STEP * k)

/-- What the network returns for one genre during `collect_ids`:
`totalFetch` is the parsed `get_total_count` result (`none` when that
request or its parse raises), `pages off` the ids extracted at page
offset `off` (`none` when fetching or extracting that page raises). -/
structure GenrePages where
  genre : String
  totalFetch : Option Nat
  pages : Nat → Option (List Nat)

/-- `collect_ids_from_single_page` (`movie_metadata.py`): no exception
handling — a raising fetch or extraction propagates; on success the page's
ids form a set. -/
def collect_ids_from_single_page (fetch : Option (List Nat)) :
    Except Unit (Finset Nat) :=
  match fetch with
  | none => .error ()
  | some l => .ok l.toFinset

/-- The inner `for partition in partitions` loop of `collect_ids`:
`ids.update(new_ids)` after each page; a raising page propagates. -/
def collectGenrePages (g : GenrePages) :
    List Nat → Finset Nat → Except Unit (Finset Nat)
  | [], ids => .ok ids
  | off :: rest, ids =>
    match collect_ids_from_single_page (g.pages off) with
    | .error e => .error e
    | .ok new => collectGenrePages g rest (ids ∪ new)

/-- `collect_ids` (`movie_metadata.py`): the outer genre loop.  A raising
`get_total_count` or page fetch propagates out of the whole function. -/
def collect_ids (pct : Nat) : List GenrePages → Finset Nat → Except Unit (Finset Nat)
  | [], ids => .ok ids
  | g :: gs, ids =>
    match g.totalFetch with
    | none => .error ()
    | some total =>
      match collectGenrePages g (pageOffsets (total * pct / 100)) ids with
      | .error e => .error e
      | .ok ids' => collect_ids pct gs ids'

/-! ## Partition transform (`split_helpfulness_col`, `movie_reviews.py` /
`preprocessing.py`)

The dataframe is modelled as a column-name list plus one cell-valuation
per row; `split_helpfulness_col` reads the raw `helpfulness` text of every
row, strips commas (`.str.replace(',', '')`), extracts all embedded digit
runs (`.str.extractall('(\d+)')`), assigns the first two as the `upvotes`
and `total_votes` columns, and drops `helpfulness`. -/

/-- A dataframe cell: a raw string, a number, or a missing value. -/
inductive Cell where
  | str (s : String)
  | num (n : Nat)
  | null
deriving DecidableEq

/-- Minimal dataframe: the column labels and, per row, the valuation of
each label (labels outside `cols` are not part of the frame). -/
structure Df where
  cols : List String
  rows : List (String → Cell)

/-- The values of column `c` down the rows (empty when `c` is not a
column of the frame). -/
def Df.colVals (df : Df) (c : String) : List Cell :=
  if c ∈ df.cols then df.rows.map (fun r => r c) else []

/-- Pair each row with its new value for column `c`. -/
def setColRows (c : String) : List (String → Cell) → List Cell → List (String → Cell)
  | r :: rs, v :: vs => (fun x => if x = c then v else r x) :: setColRows c rs vs
  | _, _ => []

/-- `df[c] = vals`: replace the column when present, append it otherwise. -/
def Df.setCol (df : Df) (c : String) (vals : List Cell) : Df :=
  { cols := if c ∈ df.cols then df.cols else df.cols ++ [c],
    rows := setColRows c df.rows vals }

/-- `df.drop(columns=[c])`: remove the label. -/
def Df.dropCol (df : Df) (c : String) : Df :=
  { cols := df.cols.filter (fun x => x ≠ c), rows := df.rows }

/-- The value of a decimal digit character. -/
def digitVal (c : Char) : Nat := c.toNat - 48

/-- The maximal digit runs of a character list, as numbers: the model of
`.str.extractall('(\d+)')`.  The accumulator holds the run currently being
read. -/
def digitRunsAux : List Char → Option Nat → List Nat
  | [], none => []
  | [], some n => [n]
  | c :: cs, none =>
    if c.isDigit then digitRunsAux cs (some (digitVal c)) else digitRunsAux cs none
  | c :: cs, some n =>
    if c.isDigit then digitRunsAux cs (some (n * 10 + digitVal c))
    else n :: digitRunsAux cs none

/-- All embedded integers of a string, in order. -/
def digitRuns (s : String) : List Nat := digitRunsAux s.data none

/-- `.str.replace(',', '')`. -/
def removeCommas (s : String) : String := ⟨s.data.filter (fun c => c ≠ ',')⟩

/-- The `(upvotes, total_votes)` pair extracted from one `helpfulness`
cell: defined exactly when the cell is text whose comma-stripped form
embeds exactly two integers (the shape the assignment to
`df_[['upvotes', 'total_votes']]` requires of every row). -/
def helpPair : Cell → Option (Nat × Nat)
  | .str s =>
    match digitRuns (removeCommas s) with
    | [a, b] => some (a, b)
    | _ => none
  | _ => none

/-- Extract the pair from every row's cell; any ill-shaped cell fails the
whole transform. -/
def extractPairs : List Cell → Option (List (Nat × Nat))
  | [] => some []
  | c :: cs =>
    match helpPair c, extractPairs cs with
    | some p, some ps => some (p :: ps)
    | _, _ => none

/-- `split_helpfulness_col` (`movie_reviews.py` / `preprocessing.py`):
raise when `helpfulness` is not a column; otherwise extract the two
embedded integers of every row's comma-stripped `helpfulness` text,
assign them as the `upvotes` and `total_votes` columns, and drop
`helpfulness`. -/
def split_helpfulness_col (df : Df) : Except String Df :=
  if "helpfulness" ∈ df.cols then
    match extractPairs (df.colVals "helpfulness") with
    | some pairs =>
      .ok ((((df.setCol "upvotes" (pairs.map (fun p => .num p.1))).setCol
              "total_votes" (pairs.map (fun p => .num p.2)))).dropCol "helpfulness")
    | none => .error "helpfulness values do not split into two integers"
  else .error "No helpfulness column in input data"

/-! ## Theorems -/

theorem retryRun_ok_spec (outcomes : Nat → Outcome) :
    ∀ fuel i s n, retryRun outcomes i fuel = .ok (s, n) →
      i < n ∧ n ≤ i + fuel ∧ outcomes (n - 1) = .ok s ∧
        ∀ j, i ≤ j → j < n - 1 → retryable (outcomes j) = true := by
  intro fuel
  induction fuel with
  | zero => intro i s n h; simp [retryRun] at h
  | succ fuel ih =>
    intro i s n h
    cases hout : outcomes i with
    | ok s' =>
      rw [retryRun, hout] at h
      obtain ⟨hs, hn⟩ : s' = s ∧ i + 1 = n := by
        constructor <;> [exact congrArg Prod.fst (Except.ok.inj h);
                         exact congrArg Prod.snd (Except.ok.inj h)]
      subst hs; subst hn
      refine ⟨by omega, by omega, by simpa using hout, ?_⟩
      intro j hij hj; omega
    | fatal => rw [retryRun, hout] at h; exact absurd h (by simp)
    | connError =>
      rw [retryRun, hout] at h
      by_cases hf : fuel = 0
      · simp [hf] at h
      · simp only [if_neg hf] at h
        obtain ⟨h1, h2, h3, h4⟩ := ih (i + 1) s n h
        refine ⟨by omega, by omega, h3, ?_⟩
        intro j hij hj
        rcases Nat.eq_or_lt_of_le hij with rfl | hlt
        · simp [retryable, hout]
        · exact h4 j (by omega) hj
    | timeout =>
      rw [retryRun, hout] at h
      by_cases hf : fuel = 0
      · simp [hf] at h
      · simp only [if_neg hf] at h
        obtain ⟨h1, h2, h3, h4⟩ := ih (i + 1) s n h
        refine ⟨by omega, by omega, h3, ?_⟩
        intro j hij hj
        rcases Nat.eq_or_lt_of_le hij with rfl | hlt
        · simp [retryable, hout]
        · exact h4 j (by omega) hj

theorem retryRun_fatal_spec (outcomes : Nat → Outcome) :
    ∀ fuel i j, i ≤ j → j < i + fuel →
      (∀ k, i ≤ k → k < j → retryable (outcomes k) = true) →
      outcomes j = .fatal → retryRun outcomes i fuel = .error .raised := by
  intro fuel
  induction fuel with
  | zero => intro i j h1 h2; omega
  | succ fuel ih =>
    intro i j h1 h2 hret hfat
    rcases Nat.eq_or_lt_of_le h1 with rfl | hlt
    · rw [retryRun, hfat]
    · have hi : retryable (outcomes i) = true := hret i le_rfl hlt
      cases hout : outcomes i with
      | ok s' => rw [hout] at hi; simp [retryable] at hi
      | fatal => rw [hout] at hi; simp [retryable] at hi
      | connError =>
        rw [retryRun, hout]
        have hf : fuel ≠ 0 := by omega
        simp only [if_neg hf]
        exact ih (i + 1) j (by omega) (by omega) (fun k hk1 hk2 => hret k (by omega) hk2) hfat
      | timeout =>
        rw [retryRun, hout]
        have hf : fuel ≠ 0 := by omega
        simp only [if_neg hf]
        exact ih (i + 1) j (by omega) (by omega) (fun k hk1 hk2 => hret k (by omega) hk2) hfat

theorem retryRun_exhausted_spec (outcomes : Nat → Outcome) :
    ∀ fuel i, retryRun outcomes i fuel = .error .retryError →
      ∀ j, i ≤ j → j < i + fuel → retryable (outcomes j) = true := by
  intro fuel
  induction fuel with
  | zero => intro i h j h1 h2; omega
  | succ fuel ih =>
    intro i h j h1 h2
    cases hout : outcomes i with
    | ok s' => rw [retryRun, hout] at h; exact absurd h (by simp)
    | fatal => rw [retryRun, hout] at h; exact absurd h (by simp)
    | connError =>
      rcases Nat.eq_or_lt_of_le h1 with rfl | hlt
      · simp [retryable, hout]
      · rw [retryRun, hout] at h
        by_cases hf : fuel = 0
        · omega
        · simp only [if_neg hf] at h
          exact ih (i + 1) h j (by omega) (by omega)
    | timeout =>
      rcases Nat.eq_or_lt_of_le h1 with rfl | hlt
      · simp [retryable, hout]
      · rw [retryRun, hout] at h
        by_cases hf : fuel = 0
        · omega
        · simp only [if_neg hf] at h
          exact ih (i + 1) h j (by omega) (by omega)

/-- C7: a `send_request` attempt is retried only after a transient
network failure (connection error or timeout), at most 5 attempts are
ever made, the inter-attempt wait drawn by `wait_random(1, 5)` lies
between 1 and 5, and a response carrying an HTTP error status code is
returned to the caller as-is on the attempt that produced it, never
retried. -/
theorem C7_retry_transient_only (outcomes : Nat → Outcome) (r : ℚ)
    (h0 : 0 ≤ r) (h1 : r < 1) :
    (∀ s n, send_request outcomes = .ok (s, n) →
      n ≤ STOP_AFTER_ATTEMPT ∧ outcomes (n - 1) = .ok s ∧
        ∀ j, j < n - 1 → retryable (outcomes j) = true) ∧
    (∀ j, j < STOP_AFTER_ATTEMPT → (∀ k, k < j → retryable (outcomes k) = true) →
      outcomes j = .fatal → send_request outcomes = .error .raised) ∧
    (∀ s, 400 ≤ s → outcomes 0 = .ok s → send_request outcomes = .ok (s, 1)) ∧
    (send_request outcomes = .error .retryError →
      ∀ j, j < STOP_AFTER_ATTEMPT → retryable (outcomes j) = true) ∧
    1 ≤ wait_random 1 5 r ∧ wait_random 1 5 r ≤ 5 := by
  refine ⟨?_, ?_, ?_, ?_, ?_, ?_⟩
  · intro s n h
    obtain ⟨g1, g2, g3, g4⟩ := retryRun_ok_spec outcomes STOP_AFTER_ATTEMPT 0 s n h
    exact ⟨by omega, g3, fun j hj => g4 j (Nat.zero_le j) hj⟩
  · intro j hj hret hfat
    exact retryRun_fatal_spec outcomes STOP_AFTER_ATTEMPT 0 j (Nat.zero_le j) (by omega)
      (fun k _ hk => hret k hk) hfat
  · intro s _ hout
    show retryRun outcomes 0 STOP_AFTER_ATTEMPT = .ok (s, 1)
    rw [show STOP_AFTER_ATTEMPT = 4 + 1 from rfl, retryRun, hout]
  · intro h j hj
    exact retryRun_exhausted_spec outcomes STOP_AFTER_ATTEMPT 0 h j (Nat.zero_le j) (by omega)
  · unfold wait_random; nlinarith
  · unfold wait_random; nlinarith

/-- Witness for C7 at a concrete input: a response with HTTP status 500 on
the first attempt is returned as-is after exactly one attempt, and the
wait drawn at `r = 1/2` lies in `[1, 5]`. -/
theorem C7_retry_transient_only_witness :
    send_request (fun _ => Outcome.ok 500) = .ok (500, 1) ∧
    1 ≤ wait_random 1 5 (1 / 2) ∧ wait_random 1 5 (1 / 2) ≤ 5 := by
  have h := C7_retry_transient_only (fun _ => Outcome.ok 500) (1 / 2)
    (by norm_num) (by norm_num)
  exact ⟨h.2.2.1 500 (by norm_num) rfl, h.2.2.2.2⟩

/-- C9: when the start-page request raises (start response absent), the
engine logs the exception but then dies with an `UnboundLocalError` at the
first use of `res`, whatever the count endpoint parsed — it never returns
a review list. -/
theorem C9_start_failure_unbound_local (α : Type) (pct : Nat)
    (feed : EntityFeed α) (parse : Option Nat)
    (hstart : feed.start = none) (hcount : feed.countFetch = some parse) :
    collect_single_movie_reviews pct feed = .error .unboundLocal := by
  simp only [collect_single_movie_reviews, hcount, hstart, get_reviews_total_count]
  rfl

/-- Witness for C9: a concrete entity whose start request failed while the
count endpoint parsed 200 reviews. -/
theorem C9_start_failure_unbound_local_witness :
    collect_single_movie_reviews 10
        (⟨none, some (some 200), []⟩ : EntityFeed Nat) = .error .unboundLocal :=
  C9_start_failure_unbound_local Nat 10 ⟨none, some (some 200), []⟩ (some 200) rfl rfl

theorem paginate_eq (α : Type) (target : Nat) (page : ReviewPage α)
    (more : List (ReviewPage α)) (acc : List α) :
    paginate target page more acc =
      (if target < (acc ++ page.batch).length then acc ++ page.batch
      else
        match page.key with
        | none => acc ++ page.batch
        | some _ =>
          match more with
          | [] => acc ++ page.batch
          | next :: rest => paginate target next rest (acc ++ page.batch)) := by
  cases page with
  | mk batch key => cases key <;> cases more <;> rfl

/-- C6: when the count parse fails, `get_reviews_total_count` returns 0,
the computed target is `floor(0 * pct / 100) = 0`, and the engine collects
no reviews beyond the batch already present on the start page. -/
theorem C6_count_parse_failure_caps (α : Type) (pct : Nat)
    (feed : EntityFeed α) (first : ReviewPage α)
    (hcount : feed.countFetch = some none)
    (hstart : feed.start = some first) (hne : first.batch ≠ []) :
    get_reviews_total_count feed.countFetch = .ok 0 ∧
    (0 : Nat) * pct / 100 = 0 ∧
    collect_single_movie_reviews pct feed = .ok first.batch := by
  refine ⟨by rw [hcount]; rfl, by simp, ?_⟩
  have h : collect_single_movie_reviews pct feed =
      .ok (paginate (0 * pct / 100) first feed.more []) := by
    simp only [collect_single_movie_reviews, hcount, hstart, get_reviews_total_count]
    rfl
  rw [h, paginate_eq]
  simp [List.length_pos.mpr hne]

/-- Witness for C6: a concrete entity with a failed count parse and a
two-review start page. -/
theorem C6_count_parse_failure_caps_witness :
    get_reviews_total_count (some none) = .ok 0 ∧
    (0 : Nat) * 50 / 100 = 0 ∧
    collect_single_movie_reviews 50
        (⟨some ⟨[3, 4], some "k"⟩, some none, [⟨[5], none⟩]⟩ : EntityFeed Nat) =
      .ok [3, 4] :=
  C6_count_parse_failure_caps Nat 50 ⟨some ⟨[3, 4], some "k"⟩, some none, [⟨[5], none⟩]⟩
    ⟨[3, 4], some "k"⟩ rfl rfl (by simp)

theorem paginate_spec (α : Type) (target : Nat) :
    ∀ (more : List (ReviewPage α)) (page : ReviewPage α) (acc : List α),
      ∃ k, 1 ≤ k ∧ k ≤ (page :: more).length ∧
        paginate target page more acc =
          acc ++ (((page :: more).take k).map ReviewPage.batch).flatten ∧
        ∀ j, 1 ≤ j → j < k →
          acc.length + ((((page :: more).take j).map ReviewPage.batch).flatten).length ≤
            target := by
  intro more
  induction more with
  | nil =>
    intro page acc
    refine ⟨1, le_rfl, by simp, ?_, fun j h1 h2 => by omega⟩
    rw [paginate_eq]
    by_cases h : target < (acc ++ page.batch).length
    · rw [if_pos h]; simp
    · rw [if_neg h]
      cases page.key <;> simp
  | cons next rest ih =>
    intro page acc
    by_cases hstop : target < (acc ++ page.batch).length
    · exact ⟨1, le_rfl, by simp, by rw [paginate_eq, if_pos hstop]; simp,
        fun j h1 h2 => by omega⟩
    · cases hkey : page.key with
      | none =>
        exact ⟨1, le_rfl, by simp, by rw [paginate_eq, if_neg hstop, hkey]; simp,
          fun j h1 h2 => by omega⟩
      | some key =>
        obtain ⟨k, hk1, hk2, hk3, hk4⟩ := ih next (acc ++ page.batch)
        refine ⟨k + 1, by omega, ?_, ?_, ?_⟩
        · simp only [List.length_cons] at hk2 ⊢; omega
        · rw [paginate_eq, if_neg hstop, hkey]
          show paginate target next rest (acc ++ page.batch) = _
          rw [hk3]
          simp [List.append_assoc]
        · intro j h1 h2
          obtain ⟨jj, rfl⟩ : ∃ jj, j = jj + 1 := ⟨j - 1, by omega⟩
          rcases Nat.eq_zero_or_pos jj with rfl | hjj
          · simp only [List.take_succ_cons, List.take_zero, List.map_cons, List.map_nil,
              List.flatten_cons, List.flatten_nil, List.append_nil]
            have := List.length_append acc page.batch
            omega
          · have := hk4 jj hjj (by omega)
            simp only [List.take_succ_cons, List.map_cons, List.flatten_cons,
              List.length_append] at this ⊢
            omega

/-- C1: with a successfully fetched start page and parsed total count, the
engine returns the concatenation of a nonempty prefix of the fetched
batches — the cutoff is evaluated only after appending, so every batch it
took is included in full, every continuation was issued only while the
accumulated count was still at most `target = floor(total * pct / 100)`,
and the result never has fewer records than the first fetched batch; in
the concrete scenario `total = 200`, `pct = 10` (target 20) with 25-review
batches, the engine stops after one fetch and returns exactly those 25
records. -/
theorem C1_pagination_cutoff (α : Type) (total pct : Nat)
    (feed : EntityFeed α) (first : ReviewPage α)
    (hstart : feed.start = some first)
    (hcount : feed.countFetch = some (some total)) :
    (∃ out, collect_single_movie_reviews pct feed = .ok out ∧
      (∃ k, 1 ≤ k ∧ k ≤ (first :: feed.more).length ∧
        out = (((first :: feed.more).take k).map ReviewPage.batch).flatten ∧
        ∀ j, 1 ≤ j → j < k →
          ((((first :: feed.more).take j).map ReviewPage.batch).flatten).length ≤
            total * pct / 100) ∧
      first.batch.length ≤ out.length) ∧
    collect_single_movie_reviews 10
        (⟨some ⟨List.replicate 25 0, some "k"⟩, some (some 200),
          List.replicate 7 ⟨List.replicate 25 0, some "k"⟩⟩ : EntityFeed Nat) =
      .ok (List.replicate 25 0) := by
  constructor
  · obtain ⟨k, hk1, hk2, hk3, hk4⟩ := paginate_spec α (total * pct / 100) feed.more first []
    refine ⟨paginate (total * pct / 100) first feed.more [], ?_, ⟨k, hk1, hk2,
      by simpa using hk3, fun j h1 h2 => by simpa using hk4 j h1 h2⟩, ?_⟩
    · simp only [collect_single_movie_reviews, hcount, hstart, get_reviews_total_count]
      rfl
    · rw [hk3]
      obtain ⟨kk, rfl⟩ : ∃ kk, k = kk + 1 := ⟨k - 1, by omega⟩
      simp
  · rfl

/-- Witness for C1: its general part instantiated at the scenario feed. -/
theorem C1_pagination_cutoff_witness :
    ∃ out, collect_single_movie_reviews 10
        (⟨some ⟨List.replicate 25 0, some "k"⟩, some (some 200),
          List.replicate 7 ⟨List.replicate 25 0, some "k"⟩⟩ : EntityFeed Nat) = .ok out ∧
      (∃ k, 1 ≤ k ∧
        k ≤ ((⟨List.replicate 25 0, some "k"⟩ : ReviewPage Nat) ::
              List.replicate 7 ⟨List.replicate 25 0, some "k"⟩).length ∧
        out = ((((⟨List.replicate 25 0, some "k"⟩ : ReviewPage Nat) ::
              List.replicate 7 ⟨List.replicate 25 0, some "k"⟩).take k).map
              ReviewPage.batch).flatten ∧
        ∀ j, 1 ≤ j → j < k →
          (((((⟨List.replicate 25 0, some "k"⟩ : ReviewPage Nat) ::
              List.replicate 7 ⟨List.replicate 25 0, some "k"⟩).take j).map
              ReviewPage.batch).flatten).length ≤ 200 * 10 / 100) ∧
      (List.replicate 25 (0 : Nat)).length ≤ out.length :=
  (C1_pagination_cutoff Nat 200 10
    ⟨some ⟨List.replicate 25 0, some "k"⟩, some (some 200),
      List.replicate 7 ⟨List.replicate 25 0, some "k"⟩⟩
    ⟨List.replicate 25 0, some "k"⟩ rfl rfl).1

/-- Counterexample to C4 as stated: one genre with catalog total 100 and
`pct_titles = 100` iterates offsets 1 and 51; page 1 yields id 10 but
page 51 raises.  The claim predicts a result containing page 1's
contribution with page 51 contributing zero; the code instead propagates
the failure and `collect_ids` aborts with the exception. -/
theorem C4_page_failure_counterexample :
    collect_ids 100 [⟨"action", some 100, fun o => if o = 1 then some [10] else none⟩] ∅ =
      .error () := by rfl

theorem collectGenrePages_fail (g : GenrePages) :
    ∀ offs ids, (∃ off ∈ offs, g.pages off = none) →
      collectGenrePages g offs ids = .error () := by
  intro offs
  induction offs with
  | nil => simp
  | cons o rest ih =>
    intro ids h
    obtain ⟨off, hmem, hnone⟩ := h
    rcases List.mem_cons.mp hmem with rfl | hmem'
    · simp [collectGenrePages, collect_ids_from_single_page, hnone]
    · cases hpage : g.pages o with
      | none => simp [collectGenrePages, collect_ids_from_single_page, hpage]
      | some l =>
        simp [collectGenrePages, collect_ids_from_single_page, hpage]
        exact ih _ ⟨off, hmem', hnone⟩

/-- C4 amended: `collect_ids` has no exception handling around its page
fetches — whenever any page offset of a genre's iteration range raises
(after the Fetcher's own retry policy), the exception propagates and
aborts identifier collection for the entire run; no page contribution and
no later genre is collected. -/
theorem C4_page_failure_aborts (pct : Nat) (g : GenrePages) (gs : List GenrePages)
    (ids : Finset Nat) (total : Nat)
    (htotal : g.totalFetch = some total)
    (hfail : ∃ off ∈ pageOffsets (total * pct / 100), g.pages off = none) :
    collect_ids pct (g :: gs) ids = .error () := by
  simp [collect_ids, htotal, collectGenrePages_fail g _ ids hfail]

/-- Witness for the amended C4: a genre of catalog total 40 whose single
page offset 1 raises aborts the run. -/
theorem C4_page_failure_aborts_witness :
    collect_ids 100 [⟨"drama", some 40, fun _ => none⟩] ∅ = .error () :=
  C4_page_failure_aborts 100 ⟨"drama", some 40, fun _ => none⟩ [] ∅ 40 rfl
    ⟨1, by decide, rfl⟩

theorem setColRows_length (c : String) :
    ∀ (rows : List (String → Cell)) (vals : List Cell),
      rows.length = vals.length → (setColRows c rows vals).length = rows.length := by
  intro rows
  induction rows with
  | nil => intro vals h; cases vals <;> simp [setColRows]
  | cons r rs ih =>
    intro vals h
    cases vals with
    | nil => simp at h
    | cons v vs => simp [setColRows, ih vs (by simpa using h)]

theorem setColRows_same (c : String) :
    ∀ (rows : List (String → Cell)) (vals : List Cell),
      rows.length = vals.length →
      (setColRows c rows vals).map (fun r => r c) = vals := by
  intro rows
  induction rows with
  | nil => intro vals h; cases vals <;> simp_all [setColRows]
  | cons r rs ih =>
    intro vals h
    cases vals with
    | nil => simp at h
    | cons v vs => simp [setColRows, ih vs (by simpa using h)]

theorem setColRows_other (c d : String) (hcd : d ≠ c) :
    ∀ (rows : List (String → Cell)) (vals : List Cell),
      rows.length = vals.length →
      (setColRows c rows vals).map (fun r => r d) = rows.map (fun r => r d) := by
  intro rows
  induction rows with
  | nil => intro vals h; cases vals <;> simp_all [setColRows]
  | cons r rs ih =>
    intro vals h
    cases vals with
    | nil => simp at h
    | cons v vs => simp [setColRows, hcd, ih vs (by simpa using h)]

theorem extractPairs_eq :
    ∀ (cells : List Cell) (pairs : List (Nat × Nat)),
      cells.map helpPair = pairs.map some → extractPairs cells = some pairs := by
  intro cells
  induction cells with
  | nil => intro pairs h; cases pairs <;> simp_all [extractPairs]
  | cons cl cls ih =>
    intro pairs h
    cases pairs with
    | nil => simp at h
    | cons p ps =>
      simp only [List.map_cons, List.cons.injEq] at h
      simp [extractPairs, h.1, ih ps h.2]

theorem setCol_mem_self (df : Df) (c : String) (vals : List Cell) :
    c ∈ (df.setCol c vals).cols := by
  unfold Df.setCol
  by_cases h : c ∈ df.cols <;> simp [h]

theorem setCol_mem_mono (df : Df) (c x : String) (vals : List Cell)
    (hx : x ∈ df.cols) : x ∈ (df.setCol c vals).cols := by
  unfold Df.setCol
  by_cases h : c ∈ df.cols <;> simp [h, hx]

/-- C8: on a partition dataframe whose every `helpfulness` cell is raw
text embedding exactly two integers `a` and `b` (commas allowed inside
the numerals, `a ≤ b`), `split_helpfulness_col` succeeds and produces a
frame whose `upvotes` column is the list of `a`s, whose `total_votes`
column is the list of `b`s (row by row), and which no longer has a
`helpfulness` column. -/
theorem C8_split_helpfulness (df : Df) (pairs : List (Nat × Nat))
    (hc : "helpfulness" ∈ df.cols)
    (hp : (df.colVals "helpfulness").map helpPair = pairs.map some)
    (hab : ∀ p ∈ pairs, p.1 ≤ p.2) :
    ∃ df', split_helpfulness_col df = .ok df' ∧
      df'.colVals "upvotes" = pairs.map (fun p => Cell.num p.1) ∧
      df'.colVals "total_votes" = pairs.map (fun p => Cell.num p.2) ∧
      "helpfulness" ∉ df'.cols := by
  clear hab
  have hrowlen : df.rows.length = pairs.length := by
    have := congrArg List.length hp
    simpa [Df.colVals, hc] using this
  have hex : extractPairs (df.colVals "helpfulness") = some pairs :=
    extractPairs_eq _ _ hp
  refine ⟨_, by unfold split_helpfulness_col; rw [if_pos hc, hex], ?_, ?_, ?_⟩
  · have h1 : "upvotes" ∈ ((df.setCol "upvotes" (pairs.map (fun p => Cell.num p.1))).setCol
        "total_votes" (pairs.map (fun p => Cell.num p.2))).cols :=
      setCol_mem_mono _ _ _ _ (setCol_mem_self df _ _)
    have hlen1 : (setColRows "upvotes" df.rows
        (pairs.map (fun p => Cell.num p.1))).length =
        (pairs.map (fun p => Cell.num p.2)).length := by
      rw [setColRows_length _ _ _ (by simpa using hrowlen)]
      simpa using hrowlen
    simp only [Df.dropCol, Df.colVals, List.mem_filter]
    rw [if_pos ⟨h1, by decide⟩]
    show ((setColRows "total_votes" (setColRows "upvotes" df.rows _) _).map
      (fun r => r "upvotes")) = _
    rw [setColRows_other "total_votes" "upvotes" (by decide) _ _ hlen1]
    rw [setColRows_same "upvotes" _ _ (by simpa using hrowlen)]
  · have h1 : "total_votes" ∈ ((df.setCol "upvotes" (pairs.map (fun p => Cell.num p.1))).setCol
        "total_votes" (pairs.map (fun p => Cell.num p.2))).cols :=
      setCol_mem_self _ _ _
    have hlen1 : (setColRows "upvotes" df.rows
        (pairs.map (fun p => Cell.num p.1))).length =
        (pairs.map (fun p => Cell.num p.2)).length := by
      rw [setColRows_length _ _ _ (by simpa using hrowlen)]
      simpa using hrowlen
    simp only [Df.dropCol, Df.colVals, List.mem_filter]
    rw [if_pos ⟨h1, by decide⟩]
    show ((setColRows "total_votes" (setColRows "upvotes" df.rows _) _).map
      (fun r => r "total_votes")) = _
    rw [setColRows_same "total_votes" _ _ hlen1]
  · simp [Df.dropCol, List.mem_filter]

/-- Witness for C8: a two-row frame with helpfulness texts
"12 out of 34 found this helpful" and
"1,234 out of 5,678 found this helpful". -/
theorem C8_split_helpfulness_witness :
    ∃ df', split_helpfulness_col
        ⟨["title_id", "helpfulness"],
         [fun c => if c = "helpfulness"
                   then Cell.str "12 out of 34 found this helpful" else Cell.str "t1",
          fun c => if c = "helpfulness"
                   then Cell.str "1,234 out of 5,678 found this helpful" else Cell.str "t2"]⟩ =
        .ok df' ∧
      df'.colVals "upvotes" = [Cell.num 12, Cell.num 1234] ∧
      df'.colVals "total_votes" = [Cell.num 34, Cell.num 5678] ∧
      "helpfulness" ∉ df'.cols :=
  C8_split_helpfulness _ [(12, 34), (1234, 5678)] (by decide) (by rfl) (by decide)

theorem reviewLoop_nil (α : Type) (psize : Nat) (rr : Bool) (total i : Nat) (s : RState α) :
    reviewLoop psize rr total i [] s = s := rfl

theorem reviewLoop_cons (α : Type) (psize : Nat) (rr : Bool) (total i : Nat)
    (m : Movie α) (rest : List (Movie α)) (s : RState α) :
    reviewLoop psize rr total i (m :: rest) s =
      (if flagOf s.table m.id then reviewLoop psize rr total (i + 1) rest s
      else if psize ≤ (if 0 < m.reviews.length then s.collected_cnt + 1
                       else s.collected_cnt) ∨ i = total then
        if rr then
          { table := setFlagCnt s.table m.id m.reviews.length,
            buffer := s.buffer ++ m.reviews,
            collected_cnt := (if 0 < m.reviews.length then s.collected_cnt + 1
                              else s.collected_cnt),
            partition_num := s.partition_num, partitions := s.partitions,
            tableWrites := s.tableWrites, attempted := s.attempted ++ [m.id],
            returned := some (s.buffer ++ m.reviews) }
        else
          reviewLoop psize rr total (i + 1) rest
            { table := setFlagCnt s.table m.id m.reviews.length, buffer := [],
              collected_cnt := 0, partition_num := s.partition_num + 1,
              partitions := s.partitions ++ [(s.partition_num, s.buffer ++ m.reviews)],
              tableWrites := s.tableWrites ++ [setFlagCnt s.table m.id m.reviews.length],
              attempted := s.attempted ++ [m.id], returned := s.returned }
      else
        reviewLoop psize rr total (i + 1) rest
          { table := setFlagCnt s.table m.id m.reviews.length,
            buffer := s.buffer ++ m.reviews,
            collected_cnt := (if 0 < m.reviews.length then s.collected_cnt + 1
                              else s.collected_cnt),
            partition_num := s.partition_num, partitions := s.partitions,
            tableWrites := s.tableWrites, attempted := s.attempted ++ [m.id],
            returned := s.returned }) := rfl

theorem lookupRow_cons (r : Nat × Bool × Nat) (t : List (Nat × Bool × Nat)) (x : Nat) :
    lookupRow (r :: t) x = if r.1 = x then some r.2 else lookupRow t x := by
  by_cases h : r.1 = x
  · rw [if_pos h]; unfold lookupRow; rw [List.find?_cons_of_pos _ (by simpa using h)]; rfl
  · rw [if_neg h]; unfold lookupRow; rw [List.find?_cons_of_neg _ (by simpa using h)]

theorem setFlagCnt_cons (r : Nat × Bool × Nat) (t : List (Nat × Bool × Nat)) (id c : Nat) :
    setFlagCnt (r :: t) id c = (if r.1 = id then (r.1, true, c) else r) :: setFlagCnt t id c := rfl

theorem lookupRow_map_self (α : Type) (m : Movie α) :
    ∀ (movies : List (Movie α)), m ∈ movies → (movies.map Movie.id).Nodup →
      lookupRow (movies.map (fun mv => (mv.id, mv.flg, mv.cnt))) m.id =
        some (m.flg, m.cnt) := by
  intro movies
  induction movies with
  | nil => simp
  | cons m' rest ih =>
    intro hm hnd
    rcases List.mem_cons.mp hm with rfl | hmem
    · simp [lookupRow_cons]
    · have hne : m'.id ≠ m.id := by
        intro he
        exact (List.nodup_cons.mp hnd).1 (he ▸ List.mem_map_of_mem Movie.id hmem)
      rw [List.map_cons, lookupRow_cons, if_neg hne]
      exact ih hmem (List.nodup_cons.mp hnd).2

theorem lookupRow_setFlagCnt_ne (x id c : Nat) (hne : x ≠ id) :
    ∀ t, lookupRow (setFlagCnt t id c) x = lookupRow t x := by
  intro t
  induction t with
  | nil => rfl
  | cons r rest ih =>
    rw [setFlagCnt_cons, lookupRow_cons, lookupRow_cons]
    by_cases h : r.1 = id
    · rw [if_pos h]
      have hx : ¬(r.1 = x) := by rw [h]; exact fun he => hne he.symm
      rw [if_neg (by simpa [h] using hx), if_neg hx]
      exact ih
    · rw [if_neg h]
      by_cases h2 : r.1 = x
      · rw [if_pos h2, if_pos h2]
      · rw [if_neg h2, if_neg h2]; exact ih

theorem lookupRow_setFlagCnt_self (x c : Nat) :
    ∀ t p, lookupRow t x = some p → lookupRow (setFlagCnt t x c) x = some (true, c) := by
  intro t
  induction t with
  | nil => intro p h; simp [lookupRow] at h
  | cons r rest ih =>
    intro p h
    rw [lookupRow_cons] at h
    rw [setFlagCnt_cons, lookupRow_cons]
    by_cases h1 : r.1 = x
    · rw [if_pos h1, if_pos (by simp [h1])]
    · rw [if_neg h1] at h
      rw [if_neg h1, if_neg h1]
      exact ih p h

theorem flagOf_eq_of_lookup (t : List (Nat × Bool × Nat)) (x : Nat) (b : Bool) (c : Nat)
    (h : lookupRow t x = some (b, c)) : flagOf t x = b := by
  simp [flagOf, h]

theorem reviewLoop_lookup_true (α : Type) (psize : Nat) (rr : Bool) (total x c : Nat) :
    ∀ (ms : List (Movie α)) (i : Nat) (s : RState α),
      lookupRow s.table x = some (true, c) →
      lookupRow (reviewLoop psize rr total i ms s).table x = some (true, c) := by
  intro ms
  induction ms with
  | nil => intro i s h; rw [reviewLoop_nil]; exact h
  | cons m rest ih =>
    intro i s h
    rw [reviewLoop_cons]
    by_cases hf : flagOf s.table m.id = true
    · rw [if_pos hf]; exact ih _ _ h
    · rw [if_neg hf]
      have hne : x ≠ m.id := by
        intro he
        exact hf (flagOf_eq_of_lookup s.table m.id true c (he ▸ h))
      have hl : lookupRow (setFlagCnt s.table m.id m.reviews.length) x = some (true, c) := by
        rw [lookupRow_setFlagCnt_ne x m.id _ hne]; exact h
      by_cases hflush : psize ≤ (if 0 < m.reviews.length then s.collected_cnt + 1
                                 else s.collected_cnt) ∨ i = total
      · rw [if_pos hflush]
        cases rr with
        | true => exact hl
        | false => exact ih _ _ hl
      · rw [if_neg hflush]; exact ih _ _ hl

theorem reviewLoop_not_attempted (α : Type) (psize : Nat) (rr : Bool) (total x c : Nat) :
    ∀ (ms : List (Movie α)) (i : Nat) (s : RState α),
      lookupRow s.table x = some (true, c) → x ∉ s.attempted →
      x ∉ (reviewLoop psize rr total i ms s).attempted := by
  intro ms
  induction ms with
  | nil => intro i s h ha; rw [reviewLoop_nil]; exact ha
  | cons m rest ih =>
    intro i s h ha
    rw [reviewLoop_cons]
    by_cases hf : flagOf s.table m.id = true
    · rw [if_pos hf]; exact ih _ _ h ha
    · rw [if_neg hf]
      have hne : x ≠ m.id := by
        intro he
        exact hf (flagOf_eq_of_lookup s.table m.id true c (he ▸ h))
      have hl : lookupRow (setFlagCnt s.table m.id m.reviews.length) x = some (true, c) := by
        rw [lookupRow_setFlagCnt_ne x m.id _ hne]; exact h
      have ha2 : x ∉ s.attempted ++ [m.id] := by
        intro hmem
        rcases List.mem_append.mp hmem with h1 | h2
        · exact ha h1
        · exact hne (List.mem_singleton.mp h2)
      by_cases hflush : psize ≤ (if 0 < m.reviews.length then s.collected_cnt + 1
                                 else s.collected_cnt) ∨ i = total
      · rw [if_pos hflush]
        cases rr with
        | true => exact ha2
        | false => exact ih _ _ hl ha2
      · rw [if_neg hflush]; exact ih _ _ hl ha2

theorem reviewLoop_process_fresh (α : Type) (psize total : Nat) (m : Movie α) :
    ∀ (ms : List (Movie α)) (i : Nat) (s : RState α) (c : Nat), m ∈ ms →
      (ms.map Movie.id).Nodup →
      lookupRow s.table m.id = some (false, c) →
      lookupRow (reviewLoop psize false total i ms s).table m.id =
        some (true, m.reviews.length) := by
  intro ms
  induction ms with
  | nil => intro i s c hm; simp at hm
  | cons mh rest ih =>
    intro i s c hm hnd h
    rcases List.mem_cons.mp hm with rfl | hmem
    · rw [reviewLoop_cons]
      have hf : ¬(flagOf s.table m.id = true) := by
        rw [flagOf_eq_of_lookup s.table m.id false c h]; simp
      rw [if_neg hf]
      have hl : lookupRow (setFlagCnt s.table m.id m.reviews.length) m.id =
          some (true, m.reviews.length) :=
        lookupRow_setFlagCnt_self m.id m.reviews.length s.table (false, c) h
      by_cases hflush : psize ≤ (if 0 < m.reviews.length then s.collected_cnt + 1
                                 else s.collected_cnt) ∨ i = total
      · rw [if_pos hflush]
        exact reviewLoop_lookup_true α psize false total m.id m.reviews.length rest _ _ hl
      · rw [if_neg hflush]
        exact reviewLoop_lookup_true α psize false total m.id m.reviews.length rest _ _ hl
    · have hne : m.id ≠ mh.id := by
        intro he
        exact (List.nodup_cons.mp hnd).1 (he ▸ List.mem_map_of_mem Movie.id hmem)
      have hnd2 := (List.nodup_cons.mp hnd).2
      rw [reviewLoop_cons]
      by_cases hf : flagOf s.table mh.id = true
      · rw [if_pos hf]; exact ih _ _ c hmem hnd2 h
      · rw [if_neg hf]
        have hl : lookupRow (setFlagCnt s.table mh.id mh.reviews.length) m.id =
            some (false, c) := by
          rw [lookupRow_setFlagCnt_ne m.id mh.id _ hne]; exact h
        by_cases hflush : psize ≤ (if 0 < mh.reviews.length then s.collected_cnt + 1
                                   else s.collected_cnt) ∨ i = total
        · rw [if_pos hflush]; exact ih _ _ c hmem hnd2 hl
        · rw [if_neg hflush]; exact ih _ _ c hmem hnd2 hl

/-- C10: in a persisting run (`return_results = False`, no overwrite),
every fresh entity the review loop processes ends with
`reviews_collected_flg = true` and `reviews_collected_cnt` equal to the
number of returned records — including when that number is 0 — and every
entity whose flag is already true is skipped without
`collect_single_movie_reviews` ever being invoked for it, so a zero-yield
entity is never re-attempted on a later run. -/
theorem C10_zero_yield_marked (α : Type) (psize : Nat) (movies : List (Movie α))
    (m : Movie α) (hnd : (movies.map Movie.id).Nodup) (hm : m ∈ movies) :
    (m.flg = false →
      lookupRow (collect_reviews false psize false movies).table m.id =
        some (true, m.reviews.length)) ∧
    (m.flg = true →
      m.id ∉ (collect_reviews false psize false movies).attempted) := by
  have h0 : lookupRow (movies.map (fun mv => (mv.id, mv.flg, mv.cnt))) m.id =
      some (m.flg, m.cnt) := lookupRow_map_self α m movies hm hnd
  constructor
  · intro hflg
    show lookupRow (reviewLoop psize false movies.length 1 movies _).table m.id = _
    exact reviewLoop_process_fresh α psize movies.length m movies 1 _ m.cnt hm hnd
      (by rw [show (fun mv : Movie α => (mv.id, if (false : Bool) then false else mv.flg,
          if (false : Bool) then 0 else mv.cnt)) = (fun mv => (mv.id, mv.flg, mv.cnt))
          from rfl]; rw [h0, hflg])
  · intro hflg
    show m.id ∉ (reviewLoop psize false movies.length 1 movies _).attempted
    exact reviewLoop_not_attempted α psize false movies.length m.id m.cnt movies 1 _
      (by rw [show (fun mv : Movie α => (mv.id, if (false : Bool) then false else mv.flg,
          if (false : Bool) then 0 else mv.cnt)) = (fun mv => (mv.id, mv.flg, mv.cnt))
          from rfl]; rw [h0, hflg]) (by simp)

/-- Witness for C10: a two-row table whose fresh entity yields zero
reviews and whose other entity is already collected. -/
theorem C10_witness :
    lookupRow (collect_reviews false 1 false
        [⟨5, false, 0, ([] : List Nat)⟩, ⟨7, true, 3, [9]⟩]).table 5 = some (true, 0) ∧
    (7 : Nat) ∉ (collect_reviews false 1 false
        [⟨5, false, 0, ([] : List Nat)⟩, ⟨7, true, 3, [9]⟩]).attempted :=
  ⟨(C10_zero_yield_marked Nat 1 [⟨5, false, 0, []⟩, ⟨7, true, 3, [9]⟩]
      ⟨5, false, 0, []⟩ (by decide) (by decide)).1 rfl,
   (C10_zero_yield_marked Nat 1 [⟨5, false, 0, []⟩, ⟨7, true, 3, [9]⟩]
      ⟨7, true, 3, [9]⟩ (by decide) (by decide)).2 rfl⟩

/-- Counterexample to C2 as stated: with partition size 100 and three
fresh entities contributing 40, 70 and 5 reviews, the state reached right
after the second entity has an empty partition list, a 110-record buffer
that was NOT flushed, and partition counter still 1; the whole run writes
exactly one partition and it has 115 rows, not 110 — because
`collected_cnt` counts entities that contributed more than zero reviews,
not review records, and `2 < 100`. -/
theorem C2_counterexample :
    ((collect_reviews false 100 false
        [⟨1, false, 0, List.replicate 40 0⟩, ⟨2, false, 0, List.replicate 70 1⟩,
         ⟨3, false, 0, List.replicate 5 2⟩]).partitions.map
      (fun p => (p.1, p.2.length)) = [(1, 115)]) ∧
    (reviewLoop 100 false 3 1
        [⟨1, false, 0, List.replicate 40 0⟩, ⟨2, false, 0, List.replicate 70 1⟩]
        { table := [(1, false, 0), (2, false, 0), (3, false, 0)], buffer := [],
          collected_cnt := 0, partition_num := 1, partitions := [],
          tableWrites := [], attempted := [], returned := none }).partitions = [] ∧
    (reviewLoop 100 false 3 1
        [⟨1, false, 0, List.replicate 40 0⟩, ⟨2, false, 0, List.replicate 70 1⟩]
        { table := [(1, false, 0), (2, false, 0), (3, false, 0)], buffer := [],
          collected_cnt := 0, partition_num := 1, partitions := [],
          tableWrites := [], attempted := [], returned := none }).buffer.length = 110 ∧
    (reviewLoop 100 false 3 1
        [⟨1, false, 0, List.replicate 40 0⟩, ⟨2, false, 0, List.replicate 70 1⟩]
        { table := [(1, false, 0), (2, false, 0), (3, false, 0)], buffer := [],
          collected_cnt := 0, partition_num := 1, partitions := [],
          tableWrites := [], attempted := [], returned := none }).partition_num = 1 :=
  ⟨rfl, rfl, rfl, rfl⟩

theorem reviewLoop_two_fresh (α : Type) (psize total i : Nat) (m1 m2 : Movie α)
    (rest : List (Movie α)) (s : RState α)
    (hfl1 : flagOf s.table m1.id = false)
    (hfl2 : flagOf (setFlagCnt s.table m1.id m1.reviews.length) m2.id = false)
    (h1 : 0 < m1.reviews.length) (h2 : 0 < m2.reviews.length)
    (hnoflush : ¬(psize ≤ s.collected_cnt + 1 ∨ i = total))
    (hflush : psize ≤ s.collected_cnt + 1 + 1 ∨ i + 1 = total) :
    reviewLoop psize false total i (m1 :: m2 :: rest) s =
      reviewLoop psize false total (i + 2) rest
        { table := setFlagCnt (setFlagCnt s.table m1.id m1.reviews.length) m2.id
            m2.reviews.length,
          buffer := [], collected_cnt := 0, partition_num := s.partition_num + 1,
          partitions := s.partitions ++
            [(s.partition_num, s.buffer ++ m1.reviews ++ m2.reviews)],
          tableWrites := s.tableWrites ++
            [setFlagCnt (setFlagCnt s.table m1.id m1.reviews.length) m2.id
              m2.reviews.length],
          attempted := s.attempted ++ [m1.id] ++ [m2.id],
          returned := s.returned } := by
  rw [reviewLoop_cons, if_neg (by rw [hfl1]; simp), if_pos h1, if_neg hnoflush]
  rw [reviewLoop_cons]
  dsimp only
  rw [if_neg (by rw [hfl2]; simp), if_pos h2, if_pos hflush]
  exact rfl

/-- C2 amended: the partition size is measured in entities contributing
more than zero reviews, not in review records.  With partition size 2,
two consecutively processed fresh entities contributing 40 and then 70
reviews trigger a flush immediately after the second entity: the updated
entity table is written to the progress store, the persisted partition is
partition number 1 holding exactly the 110 buffered review rows, the
buffer is reset to empty, and the partition counter becomes 2 for the
next flush. -/
theorem C2_partition_by_contributing_entities (m1 m2 : Movie Nat)
    (rest : List (Movie Nat))
    (hf1 : m1.flg = false) (hf2 : m2.flg = false) (hid : m1.id ≠ m2.id)
    (hl1 : m1.reviews.length = 40) (hl2 : m2.reviews.length = 70) :
    ∃ t2, collect_reviews false 2 false (m1 :: m2 :: rest) =
        reviewLoop 2 false (m1 :: m2 :: rest).length 3 rest
          { table := t2, buffer := [], collected_cnt := 0, partition_num := 2,
            partitions := [(1, m1.reviews ++ m2.reviews)], tableWrites := [t2],
            attempted := [m1.id, m2.id], returned := none } ∧
      flagOf t2 m1.id = true ∧ flagOf t2 m2.id = true ∧
      (m1.reviews ++ m2.reviews).length = 110 := by
  have hlk1 : lookupRow ((m1 :: m2 :: rest).map (fun mv => (mv.id, mv.flg, mv.cnt))) m1.id =
      some (m1.flg, m1.cnt) := by
    rw [List.map_cons, lookupRow_cons, if_pos rfl]
  have hlk2 : lookupRow ((m1 :: m2 :: rest).map (fun mv => (mv.id, mv.flg, mv.cnt))) m2.id =
      some (m2.flg, m2.cnt) := by
    rw [List.map_cons, lookupRow_cons, if_neg hid, List.map_cons, lookupRow_cons, if_pos rfl]
  have hlk2' : lookupRow (setFlagCnt
        ((m1 :: m2 :: rest).map (fun mv => (mv.id, mv.flg, mv.cnt))) m1.id
        m1.reviews.length) m2.id = some (m2.flg, m2.cnt) := by
    rw [lookupRow_setFlagCnt_ne m2.id m1.id _ (fun he => hid he.symm)]
    exact hlk2
  refine ⟨setFlagCnt (setFlagCnt ((m1 :: m2 :: rest).map (fun mv => (mv.id, mv.flg, mv.cnt)))
      m1.id m1.reviews.length) m2.id m2.reviews.length, ?_, ?_, ?_, ?_⟩
  · exact reviewLoop_two_fresh Nat 2 (m1 :: m2 :: rest).length 1 m1 m2 rest
      { table := (m1 :: m2 :: rest).map (fun mv => (mv.id, mv.flg, mv.cnt)), buffer := [],
        collected_cnt := 0, partition_num := 1, partitions := [], tableWrites := [],
        attempted := [], returned := none }
      (by rw [flagOf_eq_of_lookup _ _ _ _ hlk1]; exact hf1)
      (by rw [flagOf_eq_of_lookup _ _ _ _ hlk2']; exact hf2)
      (by omega) (by omega)
      (by simp only [List.length_cons]; omega)
      (by norm_num)
  · have := lookupRow_setFlagCnt_self m1.id m1.reviews.length _ _ hlk1
    rw [flagOf_eq_of_lookup _ _ _ _ (by
      rw [lookupRow_setFlagCnt_ne m1.id m2.id _ hid]; exact this)]
  · rw [flagOf_eq_of_lookup _ _ _ _
      (lookupRow_setFlagCnt_self m2.id m2.reviews.length _ _ hlk2')]
  · rw [List.length_append, hl1, hl2]

/-- Witness for the amended C2 at concrete entities with 40, 70 and 5
reviews. -/
theorem C2_partition_witness :
    ∃ t2, collect_reviews false 2 false
        [⟨1, false, 0, List.replicate 40 0⟩, ⟨2, false, 0, List.replicate 70 1⟩,
         ⟨3, false, 0, List.replicate 5 2⟩] =
        reviewLoop 2 false 3 3 [⟨3, false, 0, List.replicate 5 2⟩]
          { table := t2, buffer := [], collected_cnt := 0, partition_num := 2,
            partitions := [(1, List.replicate 40 0 ++ List.replicate 70 1)],
            tableWrites := [t2], attempted := [1, 2], returned := none } ∧
      flagOf t2 1 = true ∧ flagOf t2 2 = true ∧
      (List.replicate 40 (0 : Nat) ++ List.replicate 70 1).length = 110 :=
  C2_partition_by_contributing_entities ⟨1, false, 0, List.replicate 40 0⟩
    ⟨2, false, 0, List.replicate 70 1⟩ [⟨3, false, 0, List.replicate 5 2⟩]
    rfl rfl (by decide) (by simp) (by simp)

theorem metadataLoop_nil (total i : Nat) (s : MState) :
    metadataLoop total i [] s = s := rfl

theorem metadataLoop_cons (total i : Nat) (m : MovieMeta) (rest : List MovieMeta)
    (s : MState) :
    metadataLoop total i (m :: rest) s =
      (if mflagOf s.table m.id then metadataLoop total (i + 1) rest s
      else if m.fetchOk then
        (if (s.collected ++ [m.id]).length = BATCH_SIZE ∨ i = total - 1 then
          metadataLoop total (i + 1) rest
            { table := setFlagsTrue (setFields s.table m.id m.fields)
                (s.collected ++ [m.id]),
              collected := [],
              store := setFlagsTrue (setFields s.table m.id m.fields)
                (s.collected ++ [m.id]),
              storeWrites := s.storeWrites + 1, fetched := s.fetched ++ [m.id] }
        else
          metadataLoop total (i + 1) rest
            { table := setFields s.table m.id m.fields,
              collected := s.collected ++ [m.id], store := s.store,
              storeWrites := s.storeWrites, fetched := s.fetched ++ [m.id] })
      else
        metadataLoop total (i + 1) rest
          { table := s.table, collected := s.collected, store := s.store,
            storeWrites := s.storeWrites, fetched := s.fetched ++ [m.id] }) := rfl

theorem mflagOf_cons (r : MRow) (t : List MRow) (x : Nat) :
    mflagOf (r :: t) x = if r.1 = x then r.2.1 else mflagOf t x := by
  by_cases h : r.1 = x
  · rw [if_pos h]; unfold mflagOf; rw [List.find?_cons_of_pos _ (by simpa using h)]; rfl
  · rw [if_neg h]; unfold mflagOf; rw [List.find?_cons_of_neg _ (by simpa using h)]

theorem mfound_cons (r : MRow) (t : List MRow) (x : Nat) :
    mfound (r :: t) x = if r.1 = x then true else mfound t x := by
  by_cases h : r.1 = x
  · rw [if_pos h]; unfold mfound; rw [List.find?_cons_of_pos _ (by simpa using h)]; rfl
  · rw [if_neg h]; unfold mfound; rw [List.find?_cons_of_neg _ (by simpa using h)]

theorem setFields_cons (r : MRow) (t : List MRow) (id v : Nat) :
    setFields (r :: t) id v =
      (if r.1 = id then (r.1, r.2.1, some v) else r) :: setFields t id v := rfl

theorem setFlagsTrue_cons (r : MRow) (t : List MRow) (c : List Nat) :
    setFlagsTrue (r :: t) c =
      (if r.1 ∈ c then (r.1, true, r.2.2) else r) :: setFlagsTrue t c := rfl

theorem mflagOf_setFields (id v x : Nat) :
    ∀ t, mflagOf (setFields t id v) x = mflagOf t x := by
  intro t
  induction t with
  | nil => rfl
  | cons r rest ih =>
    rw [setFields_cons, mflagOf_cons, mflagOf_cons]
    by_cases h : r.1 = id
    · rw [if_pos h]
      by_cases h2 : r.1 = x
      · rw [if_pos (by simpa using h2), if_pos h2]
      · rw [if_neg (by simpa using h2), if_neg h2]; exact ih
    · rw [if_neg h]
      by_cases h2 : r.1 = x
      · rw [if_pos h2, if_pos h2]
      · rw [if_neg h2, if_neg h2]; exact ih

theorem mfound_setFields (id v x : Nat) :
    ∀ t, mfound (setFields t id v) x = mfound t x := by
  intro t
  induction t with
  | nil => rfl
  | cons r rest ih =>
    rw [setFields_cons, mfound_cons, mfound_cons]
    by_cases h : r.1 = id
    · rw [if_pos h]
      by_cases h2 : r.1 = x
      · rw [if_pos (by simpa using h2), if_pos h2]
      · rw [if_neg (by simpa using h2), if_neg h2]; exact ih
    · rw [if_neg h]
      by_cases h2 : r.1 = x
      · rw [if_pos h2, if_pos h2]
      · rw [if_neg h2, if_neg h2]; exact ih

theorem mfound_setFlagsTrue (c : List Nat) (x : Nat) :
    ∀ t, mfound (setFlagsTrue t c) x = mfound t x := by
  intro t
  induction t with
  | nil => rfl
  | cons r rest ih =>
    rw [setFlagsTrue_cons, mfound_cons, mfound_cons]
    by_cases h : r.1 ∈ c
    · rw [if_pos h]
      by_cases h2 : r.1 = x
      · rw [if_pos (by simpa using h2), if_pos h2]
      · rw [if_neg (by simpa using h2), if_neg h2]; exact ih
    · rw [if_neg h]
      by_cases h2 : r.1 = x
      · rw [if_pos h2, if_pos h2]
      · rw [if_neg h2, if_neg h2]; exact ih

theorem mflagOf_setFlagsTrue_mem (c : List Nat) (x : Nat) (hx : x ∈ c) :
    ∀ t, mfound t x = true → mflagOf (setFlagsTrue t c) x = true := by
  intro t
  induction t with
  | nil => intro h; simp [mfound] at h
  | cons r rest ih =>
    intro h
    rw [mfound_cons] at h
    rw [setFlagsTrue_cons, mflagOf_cons]
    by_cases h2 : r.1 = x
    · rw [if_pos (by rw [if_pos (h2 ▸ hx)]; exact h2)]
      rw [if_pos (h2 ▸ hx)]
    · rw [if_neg h2] at h
      rw [if_neg (by by_cases h3 : r.1 ∈ c <;> simp [h3, h2])]
      exact ih h

theorem mflagOf_setFlagsTrue_not_mem (c : List Nat) (x : Nat) (hx : x ∉ c) :
    ∀ t, mflagOf (setFlagsTrue t c) x = mflagOf t x := by
  intro t
  induction t with
  | nil => rfl
  | cons r rest ih =>
    rw [setFlagsTrue_cons, mflagOf_cons, mflagOf_cons]
    by_cases h : r.1 ∈ c
    · have h2 : ¬(r.1 = x) := fun he => hx (he ▸ h)
      rw [if_pos h, if_neg (by simpa using h2), if_neg h2]
      exact ih
    · rw [if_neg h]
      by_cases h2 : r.1 = x
      · rw [if_pos h2, if_pos h2]
      · rw [if_neg h2, if_neg h2]; exact ih

theorem mflagOf_setFlagsTrue_true (c : List Nat) (x : Nat) :
    ∀ t, mflagOf t x = true → mflagOf (setFlagsTrue t c) x = true := by
  intro t
  induction t with
  | nil => intro h; simp [mflagOf] at h
  | cons r rest ih =>
    intro h
    rw [mflagOf_cons] at h
    rw [setFlagsTrue_cons, mflagOf_cons]
    by_cases h2 : r.1 = x
    · rw [if_pos h2] at h
      by_cases h3 : r.1 ∈ c
      · rw [if_pos h3, if_pos h2]
      · rw [if_neg h3, if_pos h2]; exact h
    · rw [if_neg h2] at h
      rw [if_neg (by by_cases h3 : r.1 ∈ c <;> simp [h3, h2])]
      exact ih h

theorem metadataLoop_flag_mono (total x : Nat) :
    ∀ (ms : List MovieMeta) (i : Nat) (s : MState),
      mflagOf s.table x = true →
      mflagOf (metadataLoop total i ms s).table x = true := by
  intro ms
  induction ms with
  | nil => intro i s h; rw [metadataLoop_nil]; exact h
  | cons m rest ih =>
    intro i s h
    rw [metadataLoop_cons]
    by_cases hf : mflagOf s.table m.id = true
    · rw [if_pos hf]; exact ih _ _ h
    · rw [if_neg hf]
      cases hok : m.fetchOk with
      | false =>
        simp only [Bool.false_eq_true, if_false]
        exact ih _ _ h
      | true =>
        simp only [if_true]
        by_cases hflush : (s.collected ++ [m.id]).length = BATCH_SIZE ∨ i = total - 1
        · rw [if_pos hflush]
          exact ih _ _ (mflagOf_setFlagsTrue_true _ _ _
            (by rw [mflagOf_setFields]; exact h))
        · rw [if_neg hflush]
          exact ih _ _ (show mflagOf (setFields s.table m.id m.fields) x = true by
            rw [mflagOf_setFields]; exact h)

theorem metadataLoop_fetched_mono (total x : Nat) :
    ∀ (ms : List MovieMeta) (i : Nat) (s : MState),
      x ∈ s.fetched →
      x ∈ (metadataLoop total i ms s).fetched := by
  intro ms
  induction ms with
  | nil => intro i s h; rw [metadataLoop_nil]; exact h
  | cons m rest ih =>
    intro i s h
    rw [metadataLoop_cons]
    have hmem : x ∈ s.fetched ++ [m.id] := List.mem_append.mpr (Or.inl h)
    by_cases hf : mflagOf s.table m.id = true
    · rw [if_pos hf]; exact ih _ _ h
    · rw [if_neg hf]
      cases hok : m.fetchOk with
      | false => simp only [Bool.false_eq_true, if_false]; exact ih _ _ hmem
      | true =>
        simp only [if_true]
        by_cases hflush : (s.collected ++ [m.id]).length = BATCH_SIZE ∨ i = total - 1
        · rw [if_pos hflush]; exact ih _ _ hmem
        · rw [if_neg hflush]; exact ih _ _ hmem

theorem metadataLoop_flush_all (total : Nat) (mlast : MovieMeta)
    (hfok : mlast.fetchOk = true) :
    ∀ (ms : List MovieMeta) (i : Nat) (s : MState),
      ms.getLast? = some mlast →
      i + ms.length = total →
      (ms.map MovieMeta.id).Nodup →
      (∀ x ∈ s.collected, mfound s.table x = true) →
      (∀ x ∈ s.collected, x ∉ ms.map MovieMeta.id) →
      (∀ m' ∈ ms, mfound s.table m'.id = true) →
      mflagOf s.table mlast.id = false →
      (metadataLoop total i ms s).store = (metadataLoop total i ms s).table ∧
      (∀ x ∈ s.collected, mflagOf (metadataLoop total i ms s).table x = true) ∧
      (∀ m' ∈ ms, mflagOf s.table m'.id = false → m'.fetchOk = true →
        mflagOf (metadataLoop total i ms s).table m'.id = true) := by
  intro ms
  induction ms with
  | nil => intro i s h; simp at h
  | cons m rest ih =>
    rcases rest with _ | ⟨r2, rest2⟩
    · intro i s hlast htot hnd hcf hcd hpres hlf
      rw [List.getLast?_singleton, Option.some.injEq] at hlast
      subst hlast
      rw [metadataLoop_cons, if_neg (by rw [hlf]; simp), hfok, if_pos rfl,
        if_pos (Or.inr (by simp at htot; omega)), metadataLoop_nil]
      refine ⟨rfl, ?_, ?_⟩
      · intro x hx
        exact mflagOf_setFlagsTrue_mem _ _ (List.mem_append.mpr (Or.inl hx)) _
          (by rw [mfound_setFields]; exact hcf x hx)
      · intro m' hm' hflg hok
        rw [List.mem_singleton.mp hm']
        exact mflagOf_setFlagsTrue_mem _ _
          (List.mem_append.mpr (Or.inr (List.mem_singleton.mpr rfl))) _
          (by rw [mfound_setFields]; exact hpres m (List.mem_singleton.mpr rfl))
    · intro i s hlast htot hnd hcf hcd hpres hlf
      rw [List.getLast?_cons_cons] at hlast
      have hmlast_mem : mlast ∈ r2 :: rest2 := List.mem_of_getLast?_eq_some hlast
      have hnd' := hnd
      rw [List.map_cons, List.nodup_cons] at hnd'
      have hne_last : m.id ≠ mlast.id := by
        intro he
        exact hnd'.1 (he ▸ List.mem_map_of_mem MovieMeta.id hmlast_mem)
      have htot' : (i + 1) + (r2 :: rest2).length = total := by
        simp at htot ⊢; omega
      rw [metadataLoop_cons]
      by_cases hf : mflagOf s.table m.id = true
      · rw [if_pos hf]
        obtain ⟨g1, g2, g3⟩ := ih (i + 1) s hlast htot' hnd'.2 hcf
          (fun x hx => fun hmem => hcd x hx (by rw [List.map_cons]; exact List.mem_cons_of_mem _ hmem))
          (fun m' hm' => hpres m' (List.mem_cons_of_mem _ hm')) hlf
        refine ⟨g1, g2, ?_⟩
        intro m' hm' hflg hok
        rcases List.mem_cons.mp hm' with rfl | hmem
        · rw [hflg] at hf; simp at hf
        · exact g3 m' hmem hflg hok
      · rw [if_neg hf]
        cases hok : m.fetchOk with
        | false =>
          simp only [Bool.false_eq_true, if_false]
          obtain ⟨g1, g2, g3⟩ := ih (i + 1)
            { table := s.table, collected := s.collected, store := s.store,
              storeWrites := s.storeWrites, fetched := s.fetched ++ [m.id] }
            hlast htot' hnd'.2 hcf
            (fun x hx hmem => hcd x hx (by rw [List.map_cons]; exact List.mem_cons_of_mem _ hmem))
            (fun m' hm' => hpres m' (List.mem_cons_of_mem _ hm')) hlf
          refine ⟨g1, g2, ?_⟩
          intro m' hm' hflg hok'
          rcases List.mem_cons.mp hm' with rfl | hmem
          · rw [hok'] at hok; exact absurd hok (by simp)
          · exact g3 m' hmem hflg hok'
        | true =>
          simp only [if_true]
          by_cases hflush : (s.collected ++ [m.id]).length = BATCH_SIZE ∨ i = total - 1
          · rw [if_pos hflush]
            have hTne : ∀ y, y ∈ s.collected ++ [m.id] → y ∉ (r2 :: rest2).map MovieMeta.id := by
              intro y hy hymem
              rcases List.mem_append.mp hy with h1 | h2
              · exact hcd y h1 (by rw [List.map_cons]; exact List.mem_cons_of_mem _ hymem)
              · rw [List.mem_singleton.mp h2] at hymem
                exact hnd'.1 hymem
            have hlfT : mflagOf (setFlagsTrue (setFields s.table m.id m.fields)
                (s.collected ++ [m.id])) mlast.id = false := by
              rw [mflagOf_setFlagsTrue_not_mem _ _
                (fun hc => hTne mlast.id hc (List.mem_map_of_mem MovieMeta.id hmlast_mem)),
                mflagOf_setFields]
              exact hlf
            obtain ⟨g1, g2, g3⟩ := ih (i + 1)
              { table := setFlagsTrue (setFields s.table m.id m.fields) (s.collected ++ [m.id]),
                collected := [],
                store := setFlagsTrue (setFields s.table m.id m.fields) (s.collected ++ [m.id]),
                storeWrites := s.storeWrites + 1, fetched := s.fetched ++ [m.id] }
              hlast htot' hnd'.2 (by intro x hx; simp at hx) (by intro x hx; simp at hx)
              (fun m' hm' => by
                rw [mfound_setFlagsTrue, mfound_setFields]
                exact hpres m' (List.mem_cons_of_mem _ hm')) hlfT
            refine ⟨g1, ?_, ?_⟩
            · intro x hx
              exact metadataLoop_flag_mono total x _ _ _
                (mflagOf_setFlagsTrue_mem _ _ (List.mem_append.mpr (Or.inl hx)) _
                  (by rw [mfound_setFields]; exact hcf x hx))
            · intro m' hm' hflg hok'
              rcases List.mem_cons.mp hm' with rfl | hmem
              · exact metadataLoop_flag_mono total m'.id _ _ _
                  (mflagOf_setFlagsTrue_mem _ _
                    (List.mem_append.mpr (Or.inr (List.mem_singleton.mpr rfl))) _
                    (by rw [mfound_setFields]; exact hpres m' (List.mem_cons_self _ _)))
              · refine g3 m' hmem ?_ hok'
                rw [mflagOf_setFlagsTrue_not_mem _ _
                  (fun hc => hTne m'.id hc (List.mem_map_of_mem MovieMeta.id hmem)),
                  mflagOf_setFields]
                exact hflg
          · rw [if_neg hflush]
            obtain ⟨g1, g2, g3⟩ := ih (i + 1)
              { table := setFields s.table m.id m.fields,
                collected := s.collected ++ [m.id], store := s.store,
                storeWrites := s.storeWrites, fetched := s.fetched ++ [m.id] }
              hlast htot' hnd'.2
              (by intro x hx
                  rcases List.mem_append.mp hx with h1 | h2
                  · rw [mfound_setFields]; exact hcf x h1
                  · rw [List.mem_singleton.mp h2, mfound_setFields]
                    exact hpres m (List.mem_cons_self _ _))
              (by intro x hx hxmem
                  rcases List.mem_append.mp hx with h1 | h2
                  · exact hcd x h1 (by rw [List.map_cons]; exact List.mem_cons_of_mem _ hxmem)
                  · rw [List.mem_singleton.mp h2] at hxmem
                    exact hnd'.1 hxmem)
              (fun m' hm' => by
                rw [mfound_setFields]
                exact hpres m' (List.mem_cons_of_mem _ hm'))
              (by rw [mflagOf_setFields]; exact hlf)
            refine ⟨g1, ?_, ?_⟩
            · intro x hx
              exact g2 x (List.mem_append.mpr (Or.inl hx))
            · intro m' hm' hflg hok'
              rcases List.mem_cons.mp hm' with rfl | hmem
              · exact g2 m'.id (List.mem_append.mpr (Or.inr (List.mem_singleton.mpr rfl)))
              · refine g3 m' hmem ?_ hok'
                rw [mflagOf_setFields]
                exact hflg

theorem mflagOf_map_self (m : MovieMeta) :
    ∀ (movies : List MovieMeta), m ∈ movies → (movies.map MovieMeta.id).Nodup →
      mflagOf (movies.map (fun mv => (mv.id, mv.flg, (none : Option Nat)))) m.id = m.flg := by
  intro movies
  induction movies with
  | nil => simp
  | cons m' rest ih =>
    intro hm hnd
    rcases List.mem_cons.mp hm with rfl | hmem
    · rw [List.map_cons, mflagOf_cons, if_pos rfl]
    · have hne : m'.id ≠ m.id := by
        intro he
        exact (List.nodup_cons.mp (by simpa using hnd)).1
          (he ▸ List.mem_map_of_mem MovieMeta.id hmem)
      rw [List.map_cons, mflagOf_cons, if_neg hne]
      exact ih hmem (List.nodup_cons.mp (by simpa using hnd)).2

theorem mfound_map (m : MovieMeta) :
    ∀ (movies : List MovieMeta), m ∈ movies →
      mfound (movies.map (fun mv => (mv.id, mv.flg, (none : Option Nat)))) m.id = true := by
  intro movies
  induction movies with
  | nil => simp
  | cons m' rest ih =>
    intro hm
    rw [List.map_cons, mfound_cons]
    by_cases h : m'.id = m.id
    · rw [if_pos h]
    · rw [if_neg h]
      rcases List.mem_cons.mp hm with rfl | hmem
      · exact absurd rfl h
      · exact ih hmem

theorem metadataLoop_never_collected (total x : Nat) :
    ∀ (ms : List MovieMeta) (i : Nat) (s : MState),
      (∀ m' ∈ ms, m'.id = x → m'.fetchOk = false) →
      (∀ y ∈ s.collected, y ≠ x) →
      mflagOf s.table x = false → mflagOf s.store x = false →
      mflagOf (metadataLoop total i ms s).table x = false ∧
      mflagOf (metadataLoop total i ms s).store x = false := by
  intro ms
  induction ms with
  | nil => intro i s _ _ ht hs; rw [metadataLoop_nil]; exact ⟨ht, hs⟩
  | cons m rest ih =>
    intro i s hok hcol ht hs
    rw [metadataLoop_cons]
    by_cases hf : mflagOf s.table m.id = true
    · rw [if_pos hf]
      exact ih _ _ (fun m' hm' => hok m' (List.mem_cons_of_mem _ hm')) hcol ht hs
    · rw [if_neg hf]
      cases hfe : m.fetchOk with
      | false =>
        simp only [Bool.false_eq_true, if_false]
        exact ih _ _ (fun m' hm' => hok m' (List.mem_cons_of_mem _ hm')) hcol ht hs
      | true =>
        simp only [if_true]
        have hmx : m.id ≠ x := by
          intro he
          rw [hok m (List.mem_cons_self _ _) he] at hfe
          exact absurd hfe (by simp)
        have hcol' : ∀ y ∈ s.collected ++ [m.id], y ≠ x := by
          intro y hy
          rcases List.mem_append.mp hy with h1 | h2
          · exact hcol y h1
          · rw [List.mem_singleton.mp h2]; exact hmx
        by_cases hflush : (s.collected ++ [m.id]).length = BATCH_SIZE ∨ i = total - 1
        · rw [if_pos hflush]
          have hT : mflagOf (setFlagsTrue (setFields s.table m.id m.fields)
              (s.collected ++ [m.id])) x = false := by
            rw [mflagOf_setFlagsTrue_not_mem _ _ (fun hc => hcol' x hc rfl),
              mflagOf_setFields]
            exact ht
          exact ih _ _ (fun m' hm' => hok m' (List.mem_cons_of_mem _ hm'))
            (by intro y hy; simp at hy) hT hT
        · rw [if_neg hflush]
          exact ih _ _ (fun m' hm' => hok m' (List.mem_cons_of_mem _ hm')) hcol'
            (show mflagOf (setFields s.table m.id m.fields) x = false by
              rw [mflagOf_setFields]; exact ht) hs

theorem metadataLoop_skip_no_fetch (total x : Nat) :
    ∀ (ms : List MovieMeta) (i : Nat) (s : MState),
      mflagOf s.table x = true → x ∉ s.fetched →
      x ∉ (metadataLoop total i ms s).fetched := by
  intro ms
  induction ms with
  | nil => intro i s _ hx; rw [metadataLoop_nil]; exact hx
  | cons m rest ih =>
    intro i s ht hx
    rw [metadataLoop_cons]
    by_cases hf : mflagOf s.table m.id = true
    · rw [if_pos hf]; exact ih _ _ ht hx
    · rw [if_neg hf]
      have hmx : m.id ≠ x := by
        intro he
        rw [he] at hf
        exact hf ht
      have hx' : x ∉ s.fetched ++ [m.id] := by
        intro hmem
        rcases List.mem_append.mp hmem with h1 | h2
        · exact hx h1
        · exact hmx (List.mem_singleton.mp h2).symm
      cases hfe : m.fetchOk with
      | false =>
        simp only [Bool.false_eq_true, if_false]
        exact ih _ _ ht hx'
      | true =>
        simp only [if_true]
        by_cases hflush : (s.collected ++ [m.id]).length = BATCH_SIZE ∨ i = total - 1
        · rw [if_pos hflush]
          exact ih _ _ (mflagOf_setFlagsTrue_true _ _ _
            (by rw [mflagOf_setFields]; exact ht)) hx'
        · rw [if_neg hflush]
          exact ih _ _ (show mflagOf (setFields s.table m.id m.fields) x = true by
            rw [mflagOf_setFields]; exact ht) hx'

theorem metadataLoop_fresh_gets_fetched (total : Nat) (m : MovieMeta) :
    ∀ (ms : List MovieMeta) (i : Nat) (s : MState), m ∈ ms →
      (ms.map MovieMeta.id).Nodup →
      mflagOf s.table m.id = false →
      (∀ y ∈ s.collected, y ∉ ms.map MovieMeta.id) →
      m.id ∈ (metadataLoop total i ms s).fetched := by
  intro ms
  induction ms with
  | nil => intro i s hm; simp at hm
  | cons mh rest ih =>
    intro i s hm hnd hflg hcol
    have hnd2 : (mh.id :: rest.map MovieMeta.id).Nodup := by simpa using hnd
    have hnd' := List.nodup_cons.mp hnd2
    rw [metadataLoop_cons]
    rcases List.mem_cons.mp hm with rfl | hmem
    · rw [if_neg (by rw [hflg]; simp)]
      have hin : m.id ∈ s.fetched ++ [m.id] :=
        List.mem_append.mpr (Or.inr (List.mem_singleton.mpr rfl))
      cases hfe : m.fetchOk with
      | false =>
        simp only [Bool.false_eq_true, if_false]
        exact metadataLoop_fetched_mono total m.id _ _ _ hin
      | true =>
        simp only [if_true]
        by_cases hflush : (s.collected ++ [m.id]).length = BATCH_SIZE ∨ i = total - 1
        · rw [if_pos hflush]
          exact metadataLoop_fetched_mono total m.id _ _ _ hin
        · rw [if_neg hflush]
          exact metadataLoop_fetched_mono total m.id _ _ _ hin
    · have hne : mh.id ≠ m.id := by
        intro he
        exact hnd'.1 (he ▸ List.mem_map_of_mem MovieMeta.id hmem)
      by_cases hf : mflagOf s.table mh.id = true
      · rw [if_pos hf]
        exact ih _ _ hmem hnd'.2 hflg
          (fun y hy hz => hcol y hy (by rw [List.map_cons]; exact List.mem_cons_of_mem _ hz))
      · rw [if_neg hf]
        cases hfe : mh.fetchOk with
        | false =>
          simp only [Bool.false_eq_true, if_false]
          exact ih _ _ hmem hnd'.2 hflg
            (fun y hy hz => hcol y hy (by rw [List.map_cons]; exact List.mem_cons_of_mem _ hz))
        | true =>
          simp only [if_true]
          have hcol' : ∀ y ∈ s.collected ++ [mh.id], y ∉ rest.map MovieMeta.id := by
            intro y hy hz
            rcases List.mem_append.mp hy with h1 | h2
            · exact hcol y h1 (by rw [List.map_cons]; exact List.mem_cons_of_mem _ hz)
            · rw [List.mem_singleton.mp h2] at hz
              exact hnd'.1 hz
          by_cases hflush : (s.collected ++ [mh.id]).length = BATCH_SIZE ∨ i = total - 1
          · rw [if_pos hflush]
            refine ih _ _ hmem hnd'.2 ?_ (by intro y hy; simp at hy)
            rw [mflagOf_setFlagsTrue_not_mem _ _
              (fun hc => hcol' m.id hc (List.mem_map_of_mem MovieMeta.id hmem)),
              mflagOf_setFields]
            exact hflg
          · rw [if_neg hflush]
            refine ih _ _ hmem hnd'.2 ?_ hcol'
            rw [mflagOf_setFields]
            exact hflg

/-- Counterexample to C3 as stated: a two-entity table whose first entity
is fresh and collects successfully while the final entity is already
collected.  The final entity is skipped with `continue`, which bypasses
the flush check, so the table is never rewritten (`storeWrites = 0`):
entity 0's success is not persisted — its flag is false in the store (and
even in the in-memory table), contradicting "every entity successfully
collected during that run is persisted with metadata_collected = true by
the time the loop terminates". -/
theorem C3_counterexample :
    (collect_metadata [⟨0, false, true, 7⟩, ⟨1, true, true, 9⟩]).storeWrites = 0 ∧
    mflagOf (collect_metadata [⟨0, false, true, 7⟩, ⟨1, true, true, 9⟩]).store 0 = false ∧
    mflagOf (collect_metadata [⟨0, false, true, 7⟩, ⟨1, true, true, 9⟩]).table 0 = false ∧
    (collect_metadata [⟨0, false, true, 7⟩, ⟨1, true, true, 9⟩]).fetched = [0] :=
  ⟨rfl, rfl, rfl, rfl⟩

/-- C3 amended: the entity table is rewritten to the Progress Store when
`BATCH_SIZE` (100) entities have been collected since the last flush or
when the loop reaches the final entity *via a successful fresh
collection*; the flush check is skipped when the final entity is already
collected or fails.  Consequently, whenever the final entity of the table
is fresh and collects successfully, every entity successfully collected
during the run is persisted with `metadata_collected_flg = true` by loop
termination (and the persisted snapshot equals the final in-memory
table). -/
theorem C3_checkpoint_final_flush (movies : List MovieMeta) (mlast : MovieMeta)
    (hnd : (movies.map MovieMeta.id).Nodup)
    (hlast : movies.getLast? = some mlast)
    (hlf : mlast.flg = false) (hlo : mlast.fetchOk = true) :
    (collect_metadata movies).store = (collect_metadata movies).table ∧
    ∀ m ∈ movies, m.flg = false → m.fetchOk = true →
      mflagOf (collect_metadata movies).store m.id = true := by
  have hmem : mlast ∈ movies := List.mem_of_getLast?_eq_some hlast
  obtain ⟨g1, g2, g3⟩ := metadataLoop_flush_all movies.length mlast hlo movies 0
    { table := movies.map (fun mv => (mv.id, mv.flg, (none : Option Nat))),
      collected := [],
      store := movies.map (fun mv => (mv.id, mv.flg, (none : Option Nat))),
      storeWrites := 0, fetched := [] }
    hlast (by simp) hnd (by intro x hx; simp at hx) (by intro x hx; simp at hx)
    (fun m' hm' => mfound_map m' movies hm')
    (by rw [mflagOf_map_self mlast movies hmem hnd]; exact hlf)
  refine ⟨g1, ?_⟩
  intro m hm hmf hmok
  show mflagOf (metadataLoop movies.length 0 movies _).store m.id = true
  rw [g1]
  exact g3 m hm (by rw [mflagOf_map_self m movies hm hnd]; exact hmf) hmok

/-- Witness for the amended C3: two fresh successful entities; the final
entity triggers the last-row flush, so both are persisted as collected. -/
theorem C3_checkpoint_witness :
    mflagOf (collect_metadata [⟨0, false, true, 7⟩, ⟨1, false, true, 8⟩]).store 0 = true ∧
    mflagOf (collect_metadata [⟨0, false, true, 7⟩, ⟨1, false, true, 8⟩]).store 1 = true :=
  ⟨(C3_checkpoint_final_flush [⟨0, false, true, 7⟩, ⟨1, false, true, 8⟩]
      ⟨1, false, true, 8⟩ (by decide) rfl rfl rfl).2
      ⟨0, false, true, 7⟩ (by decide) rfl rfl,
   (C3_checkpoint_final_flush [⟨0, false, true, 7⟩, ⟨1, false, true, 8⟩]
      ⟨1, false, true, 8⟩ (by decide) rfl rfl rfl).2
      ⟨1, false, true, 8⟩ (by decide) rfl rfl⟩

/-- C5: a fresh entity whose metadata fetch/extraction raises is left
with `metadata_collected_flg = false` both in memory and in every
persisted snapshot (never marked collected in that run), the loop still
reaches and fetches every other fresh entity, and an entity whose flag is
already true is skipped without any metadata fetch being issued. -/
theorem C5_entity_failure_isolation (movies : List MovieMeta) (m : MovieMeta)
    (hnd : (movies.map MovieMeta.id).Nodup) (hm : m ∈ movies) :
    (m.flg = false → m.fetchOk = false →
      mflagOf (collect_metadata movies).table m.id = false ∧
      mflagOf (collect_metadata movies).store m.id = false) ∧
    (m.flg = true → m.id ∉ (collect_metadata movies).fetched) ∧
    (m.flg = false → m.id ∈ (collect_metadata movies).fetched) := by
  have hinit : mflagOf (movies.map (fun mv => (mv.id, mv.flg, (none : Option Nat)))) m.id
      = m.flg := mflagOf_map_self m movies hm hnd
  refine ⟨?_, ?_, ?_⟩
  · intro hflg hok
    refine metadataLoop_never_collected movies.length m.id movies 0 _ ?_
      (by intro y hy; simp at hy) (by rw [hinit]; exact hflg) (by rw [hinit]; exact hflg)
    intro m' hm' hid
    have : m' = m := List.inj_on_of_nodup_map hnd hm' hm hid
    rw [this]; exact hok
  · intro hflg
    exact metadataLoop_skip_no_fetch movies.length m.id movies 0 _
      (by rw [hinit]; exact hflg) (by simp)
  · intro hflg
    exact metadataLoop_fresh_gets_fetched movies.length m movies 0 _ hm hnd
      (by rw [hinit]; exact hflg) (by intro y hy; simp at hy)

/-- Witness for C5: a failing fresh entity stays uncollected, the
already-collected entity gets no network call, and the failing entity was
still attempted (the loop continued). -/
theorem C5_entity_failure_isolation_witness :
    (mflagOf (collect_metadata
        [⟨0, false, false, 7⟩, ⟨1, true, true, 8⟩, ⟨2, false, true, 9⟩]).table 0 = false ∧
     mflagOf (collect_metadata
        [⟨0, false, false, 7⟩, ⟨1, true, true, 8⟩, ⟨2, false, true, 9⟩]).store 0 = false) ∧
    (1 : Nat) ∉ (collect_metadata
        [⟨0, false, false, 7⟩, ⟨1, true, true, 8⟩, ⟨2, false, true, 9⟩]).fetched ∧
    (0 : Nat) ∈ (collect_metadata
        [⟨0, false, false, 7⟩, ⟨1, true, true, 8⟩, ⟨2, false, true, 9⟩]).fetched :=
  ⟨(C5_entity_failure_isolation
      [⟨0, false, false, 7⟩, ⟨1, true, true, 8⟩, ⟨2, false, true, 9⟩]
      ⟨0, false, false, 7⟩ (by decide) (by decide)).1 rfl rfl,
   (C5_entity_failure_isolation
      [⟨0, false, false, 7⟩, ⟨1, true, true, 8⟩, ⟨2, false, true, 9⟩]
      ⟨1, true, true, 8⟩ (by decide) (by decide)).2.1 rfl,
   (C5_entity_failure_isolation
      [⟨0, false, false, 7⟩, ⟨1, true, true, 8⟩, ⟨2, false, true, 9⟩]
      ⟨0, false, false, 7⟩ (by decide) (by decide)).2.2 rfl⟩

end IMDBScraper
